import Mathlib

/-!
Shallow embedding of the working-capital / inventory-optimization analytics
engine (`src/mcp_servers/tool_handlers.py`, `src/api/routers/analytics.py`,
`src/api/routers/files.py`) and proofs about it.

Conventions of the embedding:
* Monetary amounts, quantities and rates are exact rationals (`ℚ`); SQL dates
  and day counts are integers (`ℤ`).
* A table that is absent from the DuckDB store is `none`; a present table is
  `some rows`.  `has(conn, t)` is `Option.isSome`.
* SQL `NULL` in a nullable column is `Option.none`; `SUM` over an empty set
  (which is `NULL` in SQL and then defaulted by `float(x or 0)` in the Python
  code) is the rational `0`, matching the handlers' defaulting.
* Python's `round(x, 1)` / `round(x)` are modelled by `round` on `ℚ` (`ℝ` where
  a square root is involved), i.e. rounding to the nearest with ties going up;
  the handlers never hit a tie in any statement proved below.
* `math.sqrt` / `** 0.5` is `Real.sqrt`, so the few definitions that take a
  square root live in `ℝ` and are `noncomputable`; everything else computes.
-/

namespace WCIO

/-- `round(x, 1)` of the Python handlers, on exact rationals. -/
def round1 (x : ℚ) : ℚ := ((round (10 * x) : ℤ) : ℚ) / 10

/-! ## Tabular store: row types and the database state -/

/-- A row of `ar_ledger` as read by the handlers: `days_to_pay` is nullable. -/
structure ArRow where
  days_to_pay : Option ℚ
  invoice_amount : ℚ
deriving DecidableEq, Repr

/-- A row of `ap_ledger` as read by the handlers: `actual_days_to_pay` is nullable. -/
structure ApRow where
  actual_days_to_pay : Option ℚ
  invoice_amount : ℚ
deriving DecidableEq, Repr

/-- A row of `sales_transactions` as read by the handlers. -/
structure SalesRow where
  product_id : String
  transaction_date : ℤ
  qty_sold : ℤ
  total_revenue : ℚ
  total_cost : ℚ
deriving DecidableEq, Repr

/-- A row of `inventory_snapshot` as read by the handlers. -/
structure InvRow where
  product_id : String
  location_id : String
  snapshot_date : ℤ
  qty_on_hand : ℚ
  inventory_value : ℚ
  days_since_last_movement : ℤ
deriving DecidableEq, Repr

/-- A row of the `products` master as read by the handlers; `lead_time_days`
and `unit_cost` are nullable columns. -/
structure ProductRow where
  product_id : String
  lead_time_days : Option ℤ
  unit_cost : Option ℚ
deriving DecidableEq, Repr

/-- The DuckDB store as the handlers see it: each table is either absent
(`none`, i.e. `has(conn, t)` is false) or present with its rows. -/
structure Db where
  products : Option (List ProductRow)
  sales : Option (List SalesRow)
  inventory : Option (List InvRow)
  ar : Option (List ArRow)
  ap : Option (List ApRow)
deriving DecidableEq, Repr

/-- The empty store: nothing uploaded yet. -/
def dbEmpty : Db := ⟨none, none, none, none, none⟩

/-! ## KPI summary (`handle_get_kpi_summary` in `tool_handlers.py`) -/

/-- Rows of the current snapshot:
`WHERE snapshot_date = (SELECT MAX(snapshot_date) FROM inventory_snapshot)`. -/
def currentSnapshot (inv : List InvRow) : List InvRow :=
  inv.filter (fun r => (inv.map InvRow.snapshot_date).max? == some r.snapshot_date)

/-- The DIO branch of `handle_get_kpi_summary`: current inventory value over
average daily COGS (`SUM(total_cost)` over `max(COUNT(DISTINCT transaction_date), 1)`
days), zero when daily COGS is not positive. -/
def kpiDio (inv : List InvRow) (sales : List SalesRow) : ℚ :=
  let invSum := ((currentSnapshot inv).map InvRow.inventory_value).sum
  let cogsSum := (sales.map SalesRow.total_cost).sum
  let days : ℕ := ((sales.map SalesRow.transaction_date).dedup).length
  let daily := cogsSum / ((max days 1 : ℕ) : ℚ)
  if 0 < daily then round1 (invSum / daily) else 0

/-- The DSO branch of `handle_get_kpi_summary`:
`SUM(days_to_pay * invoice_amount) / NULLIF(SUM(invoice_amount), 0)` over
`ar_ledger WHERE days_to_pay IS NOT NULL`, defaulted to `0` when the divisor
is `NULL`, then rounded to one decimal. -/
def kpiDso (ar : List ArRow) : ℚ :=
  let known := ar.filter (fun r => r.days_to_pay.isSome)
  let num := (known.map (fun r => r.days_to_pay.getD 0 * r.invoice_amount)).sum
  let den := (known.map ArRow.invoice_amount).sum
  if den = 0 then round1 0 else round1 (num / den)

/-- The DPO branch of `handle_get_kpi_summary`:
`SUM(actual_days_to_pay * invoice_amount) / NULLIF(SUM(invoice_amount), 0)` over
`ap_ledger WHERE actual_days_to_pay IS NOT NULL`, defaulted and rounded the
same way as DSO. -/
def kpiDpo (ap : List ApRow) : ℚ :=
  let known := ap.filter (fun r => r.actual_days_to_pay.isSome)
  let num := (known.map (fun r => r.actual_days_to_pay.getD 0 * r.invoice_amount)).sum
  let den := (known.map ApRow.invoice_amount).sum
  if den = 0 then round1 0 else round1 (num / den)

/-- The record built by `handle_get_kpi_summary` (the static `formula` and
`unit` strings are omitted; a `none` note means the key is absent). -/
structure KpiResult where
  dio : ℚ
  dio_note : Option String
  dso : ℚ
  dso_note : Option String
  dpo : ℚ
  dpo_note : Option String
  ccc : ℚ
deriving DecidableEq, Repr

/-- `handle_get_kpi_summary`: field-by-field degradation over the available
tables, then `ccc = round(dio + dso - dpo, 1)`. -/
def handle_get_kpi_summary (db : Db) : KpiResult :=
  let dioP : ℚ × Option String :=
    match db.inventory, db.sales with
    | some inv, some s => (kpiDio inv s, none)
    | _, _ => (0, some "Need inventory_snapshot + sales_transactions")
  let dsoP : ℚ × Option String :=
    match db.ar with
    | some ar => (kpiDso ar, none)
    | none => (30, some "Upload ar_ledger for real DSO")
  let dpoP : ℚ × Option String :=
    match db.ap with
    | some ap => (kpiDpo ap, none)
    | none => (0, some "Upload ap_ledger for real DPO")
  { dio := dioP.1, dio_note := dioP.2
    dso := dsoP.1, dso_note := dsoP.2
    dpo := dpoP.1, dpo_note := dpoP.2
    ccc := round1 (dioP.1 + dsoP.1 - dpoP.1) }

/-- A store whose KPI summary computes DIO = 45.2, DSO = 32.1, DPO = 28.5. -/
def dbC1 : Db :=
  { products := none
    sales := some [⟨"P1", 0, 1, 1, 1⟩]
    inventory := some [⟨"P1", "L1", 0, 1, 452/10, 0⟩]
    ar := some [⟨some (321/10), 1⟩]
    ap := some [⟨some (285/10), 1⟩] }

/-! ## DSO / DPO analyses (`handle_dso_analysis`, `handle_dpo_analysis`) -/

/-- `overall_dso` of `handle_dso_analysis`:
`SUM(days_to_pay * invoice_amount) / NULLIF(SUM(invoice_amount), 0)` over
`ar_ledger WHERE days_to_pay IS NOT NULL`, defaulted to 0, rounded. -/
def dsoAnalysisOverall (ar : List ArRow) : ℚ := kpiDso ar

/-- `overall_dpo` of `handle_dpo_analysis`:
`SUM(actual_days_to_pay * invoice_amount) / NULLIF(SUM(invoice_amount), 0)`
over **all** of `ap_ledger` (no `IS NOT NULL` filter): SQL `SUM` drops the
`NULL` products from the numerator, but the denominator sums every
`invoice_amount`. -/
def dpoAnalysisOverall (ap : List ApRow) : ℚ :=
  let num := (ap.map (fun r =>
    match r.actual_days_to_pay with
    | some d => d * r.invoice_amount
    | none => 0)).sum
  let den := (ap.map ApRow.invoice_amount).sum
  if den = 0 then round1 0 else round1 (num / den)

/-- An AP ledger with one known-days entry and one unknown-days entry. -/
def apMixed : List ApRow := [⟨some 10, 100⟩, ⟨none, 100⟩]

/-! ## SQL gate (`handle_run_sql`) -/

/-- The denylist of mutating keywords, in the order the handler checks them. -/
def write_keywords : List (List Char) :=
  ["INSERT".data, "UPDATE".data, "DELETE".data, "DROP".data,
   "ALTER".data, "CREATE".data, "TRUNCATE".data]

/-- `sql.upper()` as a character list. -/
def upperData (s : String) : List Char := s.data.map Char.toUpper

/-- Outcome of `handle_run_sql`: either the blocked-keyword error response or
execution of the query against the store. -/
inductive SqlOutcome where
  | blocked (kw : List Char)
  | executed
deriving DecidableEq, Repr

/-- `handle_run_sql`: scan the denylist in order; the first keyword occurring
as a substring of the upper-cased text blocks the query, otherwise execute. -/
def handle_run_sql (sql : String) : SqlOutcome :=
  match write_keywords.find? (fun kw => decide (kw <:+: upperData sql)) with
  | some kw => .blocked kw
  | none => .executed

/-- Whether `handle_run_sql` blocks the query. -/
def sqlBlocked (sql : String) : Prop := ∃ kw, handle_run_sql sql = .blocked kw

/-! ## Theorems: C1 (CCC identity) -/

/-- C1: for every KPI-summary result — whether each sub-metric was computed
from data or is a degraded placeholder — the reported `ccc` field equals
`dio + dso - dpo` rounded to one decimal place; in particular a store giving
DIO = 45.2, DSO = 32.1, DPO = 28.5 reports CCC = 48.8. -/
theorem kpi_ccc_identity :
    (∀ db : Db, (handle_get_kpi_summary db).ccc =
      round1 ((handle_get_kpi_summary db).dio + (handle_get_kpi_summary db).dso
        - (handle_get_kpi_summary db).dpo)) ∧
    handle_get_kpi_summary dbC1 =
      { dio := 452/10, dio_note := none, dso := 321/10, dso_note := none
        dpo := 285/10, dpo_note := none, ccc := 488/10 } := by
  constructor
  · intro db
    obtain ⟨p, s, i, ar, ap⟩ := db
    cases i <;> cases s <;> cases ar <;> cases ap <;> rfl
  · have h1 : kpiDio [⟨"P1", "L1", 0, 1, 452/10, 0⟩] [⟨"P1", 0, 1, 1, 1⟩] = 452/10 := by
      norm_num [kpiDio, currentSnapshot, round1, round_eq, List.filter, List.dedup]
    have h2 : kpiDso [⟨some (321/10), 1⟩] = 321/10 := by
      norm_num [kpiDso, round1, round_eq, List.filter]
    have h3 : kpiDpo [⟨some (285/10), 1⟩] = 285/10 := by
      norm_num [kpiDpo, round1, round_eq, List.filter]
    show ({ dio := kpiDio _ _, dio_note := none, dso := kpiDso _, dso_note := none
            dpo := kpiDpo _, dpo_note := none
            ccc := round1 (kpiDio _ _ + kpiDso _ - kpiDpo _) } : KpiResult) = _
    rw [h1, h2, h3]
    norm_num [round1, round_eq]

/-! ## Theorems: C3 (field-by-field degradation) -/

/-- C3 counterexample: with `ar_ledger` absent the KPI summary reports
`dso = 30.0` (an estimate placeholder), not `0` as the claim states. -/
theorem kpi_missing_ar_dso_not_zero :
    dbEmpty.ar = none ∧
    (handle_get_kpi_summary dbEmpty).dso = 30 ∧
    (handle_get_kpi_summary dbEmpty).dso ≠ 0 := by
  refine ⟨rfl, rfl, ?_⟩
  norm_num [handle_get_kpi_summary, dbEmpty]

/-- C3 amended: in the KPI summary's field-by-field degradation, a missing
DIO input (inventory or sales) reports `dio = 0` with a `dio_note`, a missing
AP ledger reports `dpo = 0` with a `dpo_note`, but a missing AR ledger reports
the placeholder `dso = 30.0` (not zero) with a `dso_note`; the CCC aggregate is
always recomputed from the reported (possibly placeholder) sub-metrics. -/
theorem kpi_degradation (db : Db) :
    ((db.inventory = none ∨ db.sales = none) →
      (handle_get_kpi_summary db).dio = 0 ∧
      (handle_get_kpi_summary db).dio_note.isSome = true) ∧
    (db.ar = none →
      (handle_get_kpi_summary db).dso = 30 ∧
      (handle_get_kpi_summary db).dso_note.isSome = true) ∧
    (db.ap = none →
      (handle_get_kpi_summary db).dpo = 0 ∧
      (handle_get_kpi_summary db).dpo_note.isSome = true) ∧
    (handle_get_kpi_summary db).ccc =
      round1 ((handle_get_kpi_summary db).dio + (handle_get_kpi_summary db).dso
        - (handle_get_kpi_summary db).dpo) := by
  obtain ⟨p, s, i, ar, ap⟩ := db
  refine ⟨?_, ?_, ?_, ?_⟩
  · rintro (h | h) <;>
      (cases i <;> cases s <;> cases ar <;> cases ap <;>
        simp_all [handle_get_kpi_summary])
  · rintro h
    cases i <;> cases s <;> cases ar <;> cases ap <;>
      simp_all [handle_get_kpi_summary]
  · rintro h
    cases i <;> cases s <;> cases ar <;> cases ap <;>
      simp_all [handle_get_kpi_summary]
  · cases i <;> cases s <;> cases ar <;> cases ap <;> rfl

/-- Witness for `kpi_degradation` at the empty store. -/
theorem kpi_degradation_witness :
    (handle_get_kpi_summary dbEmpty).dio = 0 ∧
    (handle_get_kpi_summary dbEmpty).dso = 30 ∧
    (handle_get_kpi_summary dbEmpty).dpo = 0 :=
  ⟨((kpi_degradation dbEmpty).1 (Or.inl rfl)).1,
   ((kpi_degradation dbEmpty).2.1 rfl).1,
   ((kpi_degradation dbEmpty).2.2.1 rfl).1⟩

/-! ## Theorems: C5 (weighted DSO/DPO and the NULL-exclusion rule) -/

/-- C5 counterexample: on an AP ledger with rows `(days 10, amount 100)` and
`(days NULL, amount 100)`, the standalone DPO analysis reports 5 — the
NULL-days amount stays in the denominator — while excluding it from both
sides (as the claim states) gives 10. -/
theorem dpo_analysis_counterexample :
    dpoAnalysisOverall apMixed = 5 ∧
    kpiDpo apMixed = 10 ∧
    (5 : ℚ) ≠ 10 := by
  refine ⟨?_, ?_, by norm_num⟩
  · norm_num [dpoAnalysisOverall, apMixed, round1, round_eq]
  · norm_num [kpiDpo, apMixed, round1, round_eq, List.filter]

/-- C5 amended: the KPI summary's DSO and DPO and the standalone DSO analysis
exclude ledger entries with unknown days-to-pay from both numerator and
denominator — prepending such an entry never changes them — whereas the
standalone DPO analysis excludes unknown entries from the numerator only, so
its value is `Σ(days × amount over known) / Σ(amount over all)` rounded. -/
theorem weighted_dso_dpo_null_exclusion :
    (∀ (ar : List ArRow) (r : ArRow), r.days_to_pay = none →
      kpiDso (r :: ar) = kpiDso ar ∧
      dsoAnalysisOverall (r :: ar) = dsoAnalysisOverall ar) ∧
    (∀ (ap : List ApRow) (r : ApRow), r.actual_days_to_pay = none →
      kpiDpo (r :: ap) = kpiDpo ap) ∧
    (∀ ap : List ApRow, (ap.map ApRow.invoice_amount).sum ≠ 0 →
      dpoAnalysisOverall ap =
        round1 ((ap.map (fun r => (r.actual_days_to_pay.getD 0) * r.invoice_amount)).sum
          / (ap.map ApRow.invoice_amount).sum)) := by
  refine ⟨?_, ?_, ?_⟩
  · intro ar r h
    have : (r :: ar).filter (fun r => r.days_to_pay.isSome) =
        ar.filter (fun r => r.days_to_pay.isSome) := by
      simp [List.filter, h]
    constructor <;> simp [kpiDso, dsoAnalysisOverall, this]
  · intro ap r h
    have : (r :: ap).filter (fun r => r.actual_days_to_pay.isSome) =
        ap.filter (fun r => r.actual_days_to_pay.isSome) := by
      simp [List.filter, h]
    simp [kpiDpo, this]
  · intro ap h
    have hnum : (ap.map (fun r =>
        match r.actual_days_to_pay with
        | some d => d * r.invoice_amount
        | none => 0)).sum =
        (ap.map (fun r => (r.actual_days_to_pay.getD 0) * r.invoice_amount)).sum := by
      congr 1
      apply List.map_congr_left
      intro r _
      cases hr : r.actual_days_to_pay <;> simp [hr]
    simp only [dpoAnalysisOverall, hnum]
    rw [if_neg h]

/-- Witness for `weighted_dso_dpo_null_exclusion` on concrete ledgers. -/
theorem weighted_dso_dpo_null_exclusion_witness :
    kpiDso [⟨none, 7⟩, ⟨some 20, 50⟩] = kpiDso [⟨some 20, 50⟩] ∧
    kpiDpo [⟨none, 7⟩, ⟨some 20, 50⟩] = kpiDpo [⟨some 20, 50⟩] ∧
    dpoAnalysisOverall apMixed = round1 (((10 : ℚ) * 100 + 0 * 100) / (100 + 100)) := by
  refine ⟨(weighted_dso_dpo_null_exclusion.1 [⟨some 20, 50⟩] ⟨none, 7⟩ rfl).1,
    weighted_dso_dpo_null_exclusion.2.1 [⟨some 20, 50⟩] ⟨none, 7⟩ rfl, ?_⟩
  have h := weighted_dso_dpo_null_exclusion.2.2 apMixed (by norm_num [apMixed])
  rw [h]
  norm_num [apMixed]

/-! ## Theorems: C6 (SQL write-keyword denylist) -/

/-- C6: `run_sql_query` blocks a query (and does not execute it) exactly when
the upper-cased text contains one of the seven mutating keywords as a
substring; the `SELECT ... ; DROP TABLE ...` probe is blocked in upper and
lower case alike. -/
theorem run_sql_blocked_iff :
    (∀ sql : String,
      sqlBlocked sql ↔ ∃ kw ∈ write_keywords, kw <:+: upperData sql) ∧
    sqlBlocked "SELECT * FROM sales_transactions; DROP TABLE sales_transactions" ∧
    sqlBlocked "select * from sales_transactions; drop table sales_transactions" := by
  have hiff : ∀ sql : String,
      sqlBlocked sql ↔ ∃ kw ∈ write_keywords, kw <:+: upperData sql := by
    intro sql
    constructor
    · rintro ⟨kw, hkw⟩
      unfold handle_run_sql at hkw
      rcases hfind : write_keywords.find? (fun kw => decide (kw <:+: upperData sql)) with
        _ | ⟨kw'⟩
      · rw [hfind] at hkw; cases hkw
      · have hmem := List.mem_of_find?_eq_some hfind
        have hp := List.find?_some hfind
        exact ⟨kw', hmem, of_decide_eq_true hp⟩
    · rintro ⟨kw, hmem, hinf⟩
      have : (write_keywords.find? (fun kw => decide (kw <:+: upperData sql))).isSome := by
        rw [List.find?_isSome]
        exact ⟨kw, hmem, decide_eq_true hinf⟩
      rcases hfind : write_keywords.find? (fun kw => decide (kw <:+: upperData sql)) with
        _ | ⟨kw'⟩
      · rw [hfind] at this; cases this
      · exact ⟨kw', by unfold handle_run_sql; rw [hfind]⟩
  refine ⟨hiff, ?_, ?_⟩
  · rw [hiff]
    exact ⟨"DROP".data, by decide⟩
  · rw [hiff]
    exact ⟨"DROP".data, by decide⟩

/-! ## Safety stock and EOQ (`handle_calculate_safety_stock`, `handle_calculate_eoq`) -/

/-- The Z lookup `{0.90: 1.28, 0.95: 1.65, 0.99: 2.33}.get(sl, 1.65)`. -/
def zLookup (sl : ℚ) : ℚ :=
  if sl = 90/100 then 128/100
  else if sl = 95/100 then 165/100
  else if sl = 99/100 then 233/100
  else 165/100

/-- Mean of a list of rationals (SQL `AVG`). -/
def sampleMean (xs : List ℚ) : ℚ := xs.sum / (xs.length : ℚ)

/-- Sample variance, the square of DuckDB's `STDDEV` (which is `STDDEV_SAMP`).
For fewer than two values DuckDB returns `NULL`; this function then yields `0`,
which the callers treat the same way as `NULL` (Python falsiness). -/
def sampleVariance (xs : List ℚ) : ℚ :=
  ((xs.map (fun x => (x - sampleMean xs) ^ 2)).sum) / ((xs.length : ℚ) - 1)

/-- `sigma = float(r[0]) if r and r[0] else 50`: the demand standard deviation
for a SKU, defaulted to 50 whenever `STDDEV` returned `NULL` (fewer than two
sales rows) or `0.0` — both are falsy in Python, and both are exactly the
`sampleVariance = 0` case. -/
noncomputable def sigmaDemand (qtys : List ℚ) : ℝ :=
  if sampleVariance qtys = 0 then 50 else Real.sqrt (sampleVariance qtys)

/-- The quantities sold for one SKU:
`SELECT ... FROM sales_transactions WHERE product_id = sku`. -/
def qtysFor (sales : List SalesRow) (sku : String) : List ℚ :=
  (sales.filter (fun r => r.product_id == sku)).map (fun r => (r.qty_sold : ℚ))

/-- The lead-time lookup of `handle_calculate_safety_stock`: `LIMIT 1` from the
products table when present, keeping the default 14 when the table is absent,
the SKU is not found, or the stored value is `NULL` or `0` (falsy). -/
def leadTimeFor (db : Db) (sku : String) : ℤ :=
  match db.products with
  | none => 14
  | some ps =>
    match ps.find? (fun p => p.product_id == sku) with
    | some p =>
      match p.lead_time_days with
      | some l => if l = 0 then 14 else l
      | none => 14
    | none => 14

/-- One entry of the safety-stock results list. -/
structure SSEntry where
  product_id : String
  safety_stock : ℤ
  demand_std : ℝ
  lead_time : ℤ
  z_score : ℚ

/-- The per-SKU body of `handle_calculate_safety_stock`'s loop, when the sales
table is present (so the `STDDEV` query does not raise):
`ss = round(z * sigma * lt ** 0.5)`, `demand_std = round(sigma, 2)`. -/
noncomputable def ssEntryFor (db : Db) (sl : ℚ) (sales : List SalesRow) (sku : String) :
    SSEntry :=
  let z := zLookup sl
  let σ := sigmaDemand (qtysFor sales sku)
  let lt := leadTimeFor db sku
  { product_id := sku
    safety_stock := round ((z : ℝ) * σ * Real.sqrt (lt : ℝ))
    demand_std := ((round ((100 : ℝ) * σ) : ℤ) : ℝ) / 100
    lead_time := lt
    z_score := z }

/-- Response shape of `handle_calculate_safety_stock`: either a message-only
record or the data record (formula string, service level, per-SKU results,
where a failed SKU contributes an error entry instead of raising). -/
inductive SSResponse where
  | message (m : String)
  | data (formula : String) (service_level : ℚ) (results : List (Except String SSEntry))

/-- The results list of an `SSResponse` (empty for a message-only response). -/
def ssResults : SSResponse → List (Except String SSEntry)
  | .message _ => []
  | .data _ _ rs => rs

/-- Whether an `SSResponse` is a message-only response. -/
def ssIsMessage : SSResponse → Bool
  | .message _ => true
  | .data _ _ _ => false

/-- `handle_calculate_safety_stock`: no availability gate — it loops over the
first 20 SKUs; with `sales_transactions` absent every per-SKU `STDDEV` query
raises and the `except` branch records an error entry for that SKU. -/
noncomputable def handle_calculate_safety_stock (db : Db) (skus : List String) (sl : ℚ) :
    SSResponse :=
  .data "SS = Z x sigma x sqrt(LT)" sl
    ((skus.take 20).map (fun sku =>
      match db.sales with
      | none => .error sku
      | some sales => .ok (ssEntryFor db sl sales sku)))

/-- One entry of the EOQ results list. -/
structure EoqEntry where
  product_id : String
  eoq : ℤ
  annual_demand : ℤ
  unit_cost : ℚ
  orders_per_year : ℚ

/-- The unit-cost lookup of `handle_calculate_eoq`: default 10.0 when the
products table is absent, the SKU has no row, or the stored cost is `NULL` or
`0` (falsy). -/
def unitCostFor (db : Db) (sku : String) : ℚ :=
  match db.products with
  | none => 10
  | some ps =>
    match ps.find? (fun p => p.product_id == sku) with
    | some p =>
      match p.unit_cost with
      | some c => if c = 0 then 10 else c
      | none => 10
    | none => 10

/-- The per-SKU body of `handle_calculate_eoq`'s loop (sales table present):
annualized demand `D = total_qty / distinct_days * 365`, `H = unit_cost * h_pct`,
`eoq = round(sqrt(2 D S / H))` when `H > 0` else `0`; `math.sqrt` raises on a
negative argument, which the `except` turns into an error entry. -/
noncomputable def eoqEntryFor (db : Db) (S hpct : ℚ) (sales : List SalesRow) (sku : String) :
    Except String EoqEntry :=
  let rows := sales.filter (fun r => r.product_id == sku)
  let totalQ : ℤ := (rows.map SalesRow.qty_sold).sum
  let days : ℕ := max ((rows.map SalesRow.transaction_date).dedup).length 1
  let annual : ℚ := (totalQ : ℚ) / (days : ℚ) * 365
  let uc := unitCostFor db sku
  let H := uc * hpct
  if 0 < H then
    if 0 ≤ 2 * annual * S / H then
      .ok { product_id := sku
            eoq := round (Real.sqrt ((2 * annual * S / H : ℚ) : ℝ))
            annual_demand := round annual
            unit_cost := uc
            orders_per_year :=
              if 0 < round (Real.sqrt ((2 * annual * S / H : ℚ) : ℝ)) then
                round1 (annual / ((round (Real.sqrt ((2 * annual * S / H : ℚ) : ℝ)) : ℤ) : ℚ))
              else 0 }
    else .error sku
  else
    .ok { product_id := sku, eoq := 0, annual_demand := round annual
          unit_cost := uc, orders_per_year := 0 }

/-- Response shape of `handle_calculate_eoq`. -/
inductive EoqResponse where
  | message (m : String)
  | data (formula : String) (order_cost : ℚ) (holding_pct : ℚ)
      (results : List (Except String EoqEntry))

/-- The results list of an `EoqResponse`. -/
def eoqResults : EoqResponse → List (Except String EoqEntry)
  | .message _ => []
  | .data _ _ _ rs => rs

/-- Whether an `EoqResponse` is a message-only response. -/
def eoqIsMessage : EoqResponse → Bool
  | .message _ => true
  | .data _ _ _ _ => false

/-- `handle_calculate_eoq`: gated on `sales_transactions` — message-only when
it is absent, otherwise the per-SKU loop over the first 20 SKUs. -/
noncomputable def handle_calculate_eoq (db : Db) (skus : List String) (S hpct : ℚ) :
    EoqResponse :=
  match db.sales with
  | none => .message "Need sales_transactions data."
  | some sales =>
    .data "EOQ = sqrt(2DS/H)" S hpct ((skus.take 20).map (eoqEntryFor db S hpct sales))

/-! ## Theorems: C2 (availability gate for safety stock / EOQ) -/

/-- C2 counterexample: with `sales_transactions` absent,
`calculate_safety_stock` does **not** return a message-only response — it
returns its normal data record whose results list holds a per-SKU error
entry. -/
theorem safety_stock_no_gate_counterexample :
    dbEmpty.sales = none ∧
    ssIsMessage (handle_calculate_safety_stock dbEmpty ["SKU1"] (95/100)) = false ∧
    ssResults (handle_calculate_safety_stock dbEmpty ["SKU1"] (95/100)) =
      [Except.error "SKU1"] :=
  ⟨rfl, rfl, rfl⟩

/-- C2 amended: when `sales_transactions` is absent, `calculate_eoq` returns a
structured message-only response without executing its query, but
`calculate_safety_stock` has no such gate: it returns its normal data record
in which every requested SKU (up to the first 20) carries an error entry, and
no error is raised. -/
theorem missing_sales_gate (db : Db) (skus : List String) (sl S hpct : ℚ)
    (h : db.sales = none) :
    eoqIsMessage (handle_calculate_eoq db skus S hpct) = true ∧
    ssIsMessage (handle_calculate_safety_stock db skus sl) = false ∧
    ssResults (handle_calculate_safety_stock db skus sl) =
      (skus.take 20).map Except.error := by
  refine ⟨?_, rfl, ?_⟩
  · simp [handle_calculate_eoq, h, eoqIsMessage]
  · simp [handle_calculate_safety_stock, h, ssResults]

/-- Witness for `missing_sales_gate` at the empty store. -/
theorem missing_sales_gate_witness :
    eoqIsMessage (handle_calculate_eoq dbEmpty ["SKU1"] 50 (25/100)) = true ∧
    ssIsMessage (handle_calculate_safety_stock dbEmpty ["SKU1"] (95/100)) = false :=
  ⟨(missing_sales_gate dbEmpty ["SKU1"] (95/100) 50 (25/100) rfl).1,
   (missing_sales_gate dbEmpty ["SKU1"] (95/100) 50 (25/100) rfl).2.1⟩

/-! ## Theorems: C7 (safety-stock formula) -/

/-- Two sales of the same SKU with identical quantities: nonempty history with
zero demand variance. -/
def salesConst : List SalesRow := [⟨"SKU1", 0, 5, 25, 10⟩, ⟨"SKU1", 1, 5, 25, 10⟩]

/-- C7 counterexample: a SKU whose sales history is `[5, 5]` has a standard
deviation of `0`, but the handler uses `σ = 50` (Python falsiness of `0.0`),
so `σ = 50` does not hold *exactly when* the SKU has no sales history. -/
theorem sigma_default_counterexample :
    qtysFor salesConst "SKU1" = [5, 5] ∧
    qtysFor salesConst "SKU1" ≠ [] ∧
    sigmaDemand (qtysFor salesConst "SKU1") = 50 ∧
    Real.sqrt (sampleVariance (qtysFor salesConst "SKU1")) = 0 ∧
    (50 : ℝ) ≠ 0 := by
  have hq : qtysFor salesConst "SKU1" = [5, 5] := by
    simp [qtysFor, salesConst]
  have hv : sampleVariance ([5, 5] : List ℚ) = 0 := by
    norm_num [sampleVariance, sampleMean]
  refine ⟨hq, by rw [hq]; simp, ?_, ?_, by norm_num⟩
  · rw [hq]
    simp [sigmaDemand, hv]
  · rw [hq, hv]
    simp

/-- C7 amended: for every SKU, safety stock is
`round(Z × σ_demand × √lead_time)` with Z from the fixed table
{0.90 ↦ 1.28, 0.95 ↦ 1.65, 0.99 ↦ 2.33} defaulting to 1.65; `σ_demand` is the
sample standard deviation of the SKU's quantities sold, defaulting to 50 when
the SKU has no sales history (or, more generally, whenever that deviation is
undefined or zero); lead time comes from the product master with default 14;
and `round(1.65 × 50 × √14) = 309`. -/
theorem safety_stock_formula :
    (∀ (db : Db) (sl : ℚ) (sales : List SalesRow) (sku : String),
      (ssEntryFor db sl sales sku).safety_stock =
        round (((zLookup sl : ℚ) : ℝ) * sigmaDemand (qtysFor sales sku) *
          Real.sqrt ((leadTimeFor db sku : ℤ) : ℝ)) ∧
      (ssEntryFor db sl sales sku).z_score = zLookup sl ∧
      (ssEntryFor db sl sales sku).lead_time = leadTimeFor db sku) ∧
    (zLookup (90/100) = 128/100 ∧ zLookup (95/100) = 165/100 ∧
      zLookup (99/100) = 233/100 ∧
      (∀ sl : ℚ, sl ≠ 90/100 → sl ≠ 95/100 → sl ≠ 99/100 → zLookup sl = 165/100)) ∧
    (∀ (sales : List SalesRow) (sku : String), qtysFor sales sku = [] →
      sigmaDemand (qtysFor sales sku) = 50) ∧
    (∀ (db : Db) (sku : String), db.products = none → leadTimeFor db sku = 14) ∧
    round ((165/100 : ℝ) * 50 * Real.sqrt (((14 : ℤ) : ℤ) : ℝ)) = 309 := by
  refine ⟨fun db sl sales sku => ⟨rfl, rfl, rfl⟩, ?_, ?_, ?_, ?_⟩
  · refine ⟨by norm_num [zLookup], by norm_num [zLookup], by norm_num [zLookup], ?_⟩
    intro sl h1 h2 h3
    simp [zLookup, h1, h2, h3]
  · intro sales sku h
    rw [h]
    norm_num [sigmaDemand, sampleVariance, sampleMean]
  · intro db sku h
    simp [leadTimeFor, h]
  · have h14 : (((14 : ℤ) : ℤ) : ℝ) = (14 : ℝ) := by norm_num
    rw [h14, round_eq]
    have hlow : (617/165 : ℝ) ≤ Real.sqrt 14 := by
      rw [Real.le_sqrt (by norm_num) (by norm_num)]
      norm_num
    have hhigh : Real.sqrt 14 < (619/165 : ℝ) := by
      rw [Real.sqrt_lt' (by norm_num)]
      norm_num
    have : ⌊(165/100 : ℝ) * 50 * Real.sqrt 14 + 1/2⌋ = (309 : ℤ) := by
      rw [Int.floor_eq_iff]
      constructor
      · push_cast
        nlinarith [hlow]
      · push_cast
        nlinarith [hhigh]
    exact this

/-- Witness for `safety_stock_formula`: a SKU with no sales history, no
product-master row, and service level 0.95 gets safety stock 309. -/
theorem safety_stock_formula_witness :
    (ssEntryFor dbEmpty (95/100) [] "SKU1").safety_stock = 309 := by
  obtain ⟨hform, hz, hsig, hlt, h309⟩ := safety_stock_formula
  rw [(hform dbEmpty (95/100) [] "SKU1").1,
    hsig [] "SKU1" rfl, hlt dbEmpty "SKU1" rfl, hz.2.1]
  have hc : (((165/100 : ℚ)) : ℝ) = (165/100 : ℝ) := by norm_num
  rw [hc]
  exact h309

/-! ## Theorems: C10 (first-20-SKUs cap) -/

/-- A store whose sales table is present but empty. -/
def dbSalesEmpty : Db := ⟨none, some [], none, none, none⟩

/-- A list of 21 SKU identifiers. -/
def skus21 : List String := List.replicate 21 "S"

/-- C10: `calculate_safety_stock` and `calculate_eoq` compute a result entry
only for the first 20 requested SKUs: the response equals the response for
`skus.take 20`, and the results list has `min |skus| 20` entries (for EOQ,
whenever the sales gate passes); later SKUs yield no entry and no error. -/
theorem sku_cap_take20 (db : Db) (skus : List String) (sl S hpct : ℚ) :
    handle_calculate_safety_stock db skus sl =
      handle_calculate_safety_stock db (skus.take 20) sl ∧
    handle_calculate_eoq db skus S hpct =
      handle_calculate_eoq db (skus.take 20) S hpct ∧
    (ssResults (handle_calculate_safety_stock db skus sl)).length = min skus.length 20 ∧
    (∀ sales, db.sales = some sales →
      (eoqResults (handle_calculate_eoq db skus S hpct)).length = min skus.length 20) := by
  refine ⟨?_, ?_, ?_, ?_⟩
  · simp [handle_calculate_safety_stock, List.take_take]
  · cases h : db.sales <;> simp [handle_calculate_eoq, h, List.take_take]
  · simp [handle_calculate_safety_stock, ssResults, List.length_take, Nat.min_comm]
  · intro sales h
    simp [handle_calculate_eoq, h, eoqResults, List.length_take, Nat.min_comm]

/-- Witness for `sku_cap_take20`: 21 requested SKUs yield exactly 20 entries. -/
theorem sku_cap_take20_witness :
    (ssResults (handle_calculate_safety_stock dbSalesEmpty skus21 (95/100))).length = 20 ∧
    (eoqResults (handle_calculate_eoq dbSalesEmpty skus21 50 (25/100))).length = 20 := by
  have h := sku_cap_take20 dbSalesEmpty skus21 (95/100) 50 (25/100)
  have hlen : skus21.length = 21 := rfl
  constructor
  · rw [h.2.2.1, hlen]
    norm_num
  · rw [h.2.2.2 [] rfl, hlen]
    norm_num

/-! ## ABC classification (`handle_abc_xyz` computed path, `get_abc_xyz_classification`)

The SQL (`tool_handlers.py:281-288`) first groups sales per product
(CTE `s`), then computes `SUM(rev) OVER (ORDER BY rev DESC) / SUM(rev) OVER () * 100`.
With an `ORDER BY` and no explicit frame, the window defaults to
`RANGE UNBOUNDED PRECEDING`, which includes all *peers* of the current row:
a row's cumulative sum is the sum of every revenue `≥` its own.  There is no
secondary sort key, so tied revenues share one cumulative value.  `ORDER BY`
is modelled by a stable structural sort. -/

/-- One grouped row of the CTE `s`: a SKU with its summed revenue. -/
structure SkuRev where
  sku : String
  rev : ℚ
deriving DecidableEq, Repr

/-- The CTE `s`: `SELECT product_id, SUM(total_revenue) ... GROUP BY product_id`. -/
def skuRevs (sales : List SalesRow) : List SkuRev :=
  ((sales.map SalesRow.product_id).dedup).map (fun pid =>
    ⟨pid, ((sales.filter (fun r => r.product_id == pid)).map SalesRow.total_revenue).sum⟩)

/-- `SUM(rev) OVER (ORDER BY rev DESC) / SUM(rev) OVER () * 100` under the
default RANGE frame: the cumulative share of a row with revenue `r` is the sum
of all revenues `≥ r` over the total, as a percentage. -/
def cumPct (revs : List ℚ) (r : ℚ) : ℚ :=
  ((revs.filter (fun x => decide (r ≤ x))).sum) / revs.sum * 100

/-- `CASE WHEN cum <= 80 THEN 'A' WHEN cum <= 95 THEN 'B' ELSE 'C' END`. -/
def abcClass (c : ℚ) : Char :=
  if c ≤ 80 then 'A' else if c ≤ 95 then 'B' else 'C'

/-- The computed ABC path of `handle_abc_xyz` on grouped rows: classify every
SKU by its RANGE-cumulative share and return the rows ordered by revenue
descending (`ORDER BY rev DESC`). -/
def handle_abc_from_sales (items : List SkuRev) : List (String × ℚ × Char) :=
  (items.insertionSort (fun a b => b.rev ≤ a.rev)).map
    (fun p => (p.sku, p.rev, abcClass (cumPct (items.map SkuRev.rev) p.rev)))

/-- Running prefix-cumulative classification along a sorted list (the claim's
reading: each row's cumulative share counts only the rows at or before it in
the tie-broken order). -/
def specAssign (total : ℚ) : ℚ → List SkuRev → List (String × Char)
  | _, [] => []
  | acc, x :: t => (x.sku, abcClass ((acc + x.rev) / total * 100)) :: specAssign total (acc + x.rev) t

/-- Modelled from the claim's words (not from the source): ABC classification
with the SKU-ascending secondary order (revenue descending, then SKU id
ascending) and strict prefix cumulative shares. -/
def abcSpec (items : List SkuRev) : List (String × Char) :=
  specAssign ((items.map SkuRev.rev).sum) 0
    (items.insertionSort (fun a b => b.rev < a.rev ∨ (a.rev = b.rev ∧ a.sku ≤ b.sku)))

/-- Rank of an ABC class letter, `'A' < 'B' < 'C'`. -/
def classRank (c : Char) : ℕ :=
  if c = 'A' then 0 else if c = 'B' then 1 else 2

/-- Two SKUs with tied revenues. -/
def itemsTied : List SkuRev := [⟨"S1", 60⟩, ⟨"S2", 60⟩]

/-! ## Theorems: C4 (ABC classification) -/

/-- C4 counterexample: on tied revenues [60, 60] the code's RANGE-cumulative
classification gives both SKUs class C (each row's cumulative share is 100%),
while the claimed SKU-ascending tie-break gives the first SKU class A — the
code computes no such secondary order. -/
theorem abc_tiebreak_counterexample :
    (handle_abc_from_sales itemsTied).map (fun t => (t.1, t.2.2)) =
      [("S1", 'C'), ("S2", 'C')] ∧
    abcSpec itemsTied = [("S1", 'A'), ("S2", 'C')] ∧
    (handle_abc_from_sales itemsTied).map (fun t => (t.1, t.2.2)) ≠ abcSpec itemsTied := by
  have hcode : handle_abc_from_sales itemsTied = [("S1", 60, 'C'), ("S2", 60, 'C')] := by
    norm_num [handle_abc_from_sales, itemsTied, List.insertionSort, List.orderedInsert,
      cumPct, abcClass, List.filter]
  have hspec : abcSpec itemsTied = [("S1", 'A'), ("S2", 'C')] := by
    norm_num [abcSpec, itemsTied, List.insertionSort, List.orderedInsert, specAssign,
      abcClass, (show ("S1" : String) ≤ "S2" by rw [String.le_iff_toList_le]; decide)]
  refine ⟨by rw [hcode]; rfl, hspec, ?_⟩
  rw [hcode, hspec]
  decide

/-- C4 amended: the computed ABC classification orders SKUs by revenue
descending and assigns A when the cumulative share is ≤ 80%, B when ≤ 95%,
else C, where a SKU's cumulative share counts every revenue ≥ its own (the SQL
RANGE frame): every SKU receives exactly one class, the output is sorted by
revenue descending, tied revenues always receive the same class (there is no
SKU-identifier secondary order, but the classification is still deterministic
because a SKU's class depends only on the revenue multiset), larger revenues
never receive a worse class, and revenues [50, 30, 15, 5] classify as
A, A, B, C. -/
theorem abc_classification (items : List SkuRev) (hpos : ∀ p ∈ items, 0 ≤ p.rev) :
    (handle_abc_from_sales items).Perm
      (items.map (fun p => (p.sku, p.rev, abcClass (cumPct (items.map SkuRev.rev) p.rev)))) ∧
    (handle_abc_from_sales items).Pairwise (fun x y => y.2.1 ≤ x.2.1) ∧
    (∀ x ∈ handle_abc_from_sales items, ∀ y ∈ handle_abc_from_sales items,
      x.2.1 = y.2.1 → x.2.2 = y.2.2) ∧
    (∀ x ∈ handle_abc_from_sales items, ∀ y ∈ handle_abc_from_sales items,
      x.2.1 ≤ y.2.1 → classRank y.2.2 ≤ classRank x.2.2) ∧
    handle_abc_from_sales [⟨"S1", 50⟩, ⟨"S2", 30⟩, ⟨"S3", 15⟩, ⟨"S4", 5⟩] =
      [("S1", 50, 'A'), ("S2", 30, 'A'), ("S3", 15, 'B'), ("S4", 5, 'C')] := by
  have hmem : ∀ x ∈ handle_abc_from_sales items,
      ∃ p ∈ items, x = (p.sku, p.rev, abcClass (cumPct (items.map SkuRev.rev) p.rev)) := by
    intro x hx
    unfold handle_abc_from_sales at hx
    rcases List.mem_map.mp hx with ⟨p, hp, hpx⟩
    exact ⟨p, (List.perm_insertionSort _ items).mem_iff.mp hp, hpx.symm⟩
  have hanti : ∀ {r1 r2 : ℚ}, r1 ≤ r2 →
      cumPct (items.map SkuRev.rev) r2 ≤ cumPct (items.map SkuRev.rev) r1 := by
    intro r1 r2 hr
    unfold cumPct
    have hall : ∀ x ∈ items.map SkuRev.rev, 0 ≤ x := by
      intro x hx
      rcases List.mem_map.mp hx with ⟨p, hp, rfl⟩
      exact hpos p hp
    have hsub : ((items.map SkuRev.rev).filter (fun x => decide (r2 ≤ x))).sum ≤
        ((items.map SkuRev.rev).filter (fun x => decide (r1 ≤ x))).sum := by
      generalize items.map SkuRev.rev = revs at hall ⊢
      induction revs with
      | nil => simp
      | cons x t ih =>
        have hx : 0 ≤ x := hall x (List.mem_cons_self x t)
        have ht := fun y hy => hall y (List.mem_cons_of_mem x hy)
        by_cases h2 : r2 ≤ x
        · have h1 : r1 ≤ x := le_trans hr h2
          simp [List.filter_cons, h2, h1]
          linarith [ih ht]
        · by_cases h1 : r1 ≤ x
          · simp [List.filter_cons, h2, h1]
            linarith [ih ht, hx]
          · simp [List.filter_cons, h2, h1]
            exact ih ht
    have htot : 0 ≤ (items.map SkuRev.rev).sum := by
      apply List.sum_nonneg
      intro x hx
      rcases List.mem_map.mp hx with ⟨p, hp, rfl⟩
      exact hpos p hp
    rcases eq_or_lt_of_le htot with h0 | hpos'
    · rw [← h0]
      simp
    · exact mul_le_mul_of_nonneg_right
        ((div_le_div_iff_of_pos_right hpos').mpr hsub) (by norm_num)
  have hrank : ∀ {c1 c2 : ℚ}, c1 ≤ c2 → classRank (abcClass c1) ≤ classRank (abcClass c2) := by
    intro c1 c2 hc
    unfold abcClass classRank
    split_ifs <;> first | rfl | omega | linarith | simp_all
  refine ⟨?_, ?_, ?_, ?_, ?_⟩
  · exact (List.perm_insertionSort _ items).map _
  · unfold handle_abc_from_sales
    rw [List.pairwise_map]
    haveI : IsTotal SkuRev (fun a b => b.rev ≤ a.rev) := ⟨fun a b => le_total b.rev a.rev⟩
    haveI : IsTrans SkuRev (fun a b => b.rev ≤ a.rev) := ⟨fun _ _ _ hab hbc => le_trans hbc hab⟩
    exact List.sorted_insertionSort _ items
  · intro x hx y hy hxy
    rcases hmem x hx with ⟨p, _, rfl⟩
    rcases hmem y hy with ⟨q, _, rfl⟩
    simp only at hxy ⊢
    rw [hxy]
  · intro x hx y hy hxy
    rcases hmem x hx with ⟨p, _, rfl⟩
    rcases hmem y hy with ⟨q, _, rfl⟩
    simp only at hxy ⊢
    exact hrank (hanti hxy)
  · norm_num [handle_abc_from_sales, List.insertionSort, List.orderedInsert,
      cumPct, abcClass, List.filter]

/-- Witness for `abc_classification` on the [50, 30, 15, 5] dataset. -/
theorem abc_classification_witness :
    handle_abc_from_sales [⟨"S1", 50⟩, ⟨"S2", 30⟩, ⟨"S3", 15⟩, ⟨"S4", 5⟩] =
      [("S1", 50, 'A'), ("S2", 30, 'A'), ("S3", 15, 'B'), ("S4", 5, 'C')] :=
  (abc_classification [⟨"S1", 50⟩, ⟨"S2", 30⟩, ⟨"S3", 15⟩, ⟨"S4", 5⟩]
    (by intro p hp; fin_cases hp <;> norm_num)).2.2.2.2

/-! ## Dead stock (`get_dead_stock` in `analytics.py`, `handle_dead_stock` in `tool_handlers.py`) -/

/-- A row of the API's `inventory` table as used by `/dead-stock`. -/
structure InvRowA where
  sku : String
  qty_on_hand : ℚ
  unit_cost : ℚ
deriving DecidableEq, Repr

/-- A row of the API's `sales` table as used by `/dead-stock` (date in days). -/
structure SaleRowA where
  sku : String
  date : ℤ
deriving DecidableEq, Repr

/-- `MAX(s.date)` over the sales joined to an inventory SKU (`NULL` when the
SKU never sold). -/
def lastSaleDate (sales : List SaleRowA) (sku : String) : Option ℤ :=
  ((sales.filter (fun s => s.sku == sku)).map SaleRowA.date).max?

/-- The `HAVING MAX(s.date) IS NULL OR CURRENT_DATE - MAX(s.date) > days`
condition of the API dead-stock query. -/
def deadCond (sales : List SaleRowA) (today days : ℤ) (i : InvRowA) : Bool :=
  match lastSaleDate sales i.sku with
  | none => true
  | some d => decide (days < today - d)

/-- One output row of the API dead-stock query. -/
structure DeadRow where
  sku : String
  qty_on_hand : ℚ
  unit_cost : ℚ
  value_at_risk : ℚ
  last_sale_date : Option ℤ
deriving DecidableEq, Repr

/-- Builds a dead-stock output row: `value_at_risk = qty_on_hand * unit_cost`. -/
def deadRowOf (sales : List SaleRowA) (i : InvRowA) : DeadRow :=
  ⟨i.sku, i.qty_on_hand, i.unit_cost, i.qty_on_hand * i.unit_cost, lastSaleDate sales i.sku⟩

/-- The `/dead-stock` route body: group the inventory rows by the full
`(sku, qty_on_hand, unit_cost)` key (`dedup`), keep the groups satisfying the
`HAVING` condition, attach `value_at_risk` and `last_sale_date`, and order by
`value_at_risk DESC`. -/
def get_dead_stock (inv : List InvRowA) (sales : List SaleRowA) (today days : ℤ) :
    List DeadRow :=
  (((inv.dedup).filter (deadCond sales today days)).map (deadRowOf sales)).insertionSort
    (fun a b => b.value_at_risk ≤ a.value_at_risk)

/-- The route's `days` query parameter defaults to 90. -/
def get_dead_stock_route (inv : List InvRowA) (sales : List SaleRowA) (today : ℤ)
    (daysArg : Option ℤ) : List DeadRow :=
  get_dead_stock inv sales today (daysArg.getD 90)

/-- `MAX(days_since_last_movement)` over the current-snapshot rows of one
product in the tool-handler dead-stock query. -/
def maxIdle (inv : List InvRow) (pid : String) : ℤ :=
  ((((currentSnapshot inv).filter (fun r => r.product_id == pid)).map
    InvRow.days_since_last_movement).max?).getD 0

/-- `handle_dead_stock` of the tool handlers: group the **current snapshot**
by product, keep products with `MAX(days_since_last_movement) > days` (any
sufficiently stale location suffices), report summed quantity and summed
`inventory_value`, order by that value descending.  Output tuple:
`(product_id, qty, value_at_risk, days_idle)`. -/
def handle_dead_stock (inv : List InvRow) (days : ℤ) : List (String × ℚ × ℚ × ℤ) :=
  let cur := currentSnapshot inv
  (((cur.map InvRow.product_id).dedup).filterMap (fun pid =>
    let g := cur.filter (fun r => r.product_id == pid)
    if days < maxIdle inv pid then
      some (pid, (g.map InvRow.qty_on_hand).sum, (g.map InvRow.inventory_value).sum,
        maxIdle inv pid)
    else none)).insertionSort (fun a b => b.2.2.1 ≤ a.2.2.1)

/-- One product stocked at two locations: moved 5 days ago at L1 and 100 days
ago at L2. -/
def invTwoLoc : List InvRow :=
  [⟨"P", "L1", 0, 1, 10, 5⟩, ⟨"P", "L2", 0, 1, 10, 100⟩]

/-! ## Theorems: C8 (dead stock) -/

/-- C8 counterexample: the tool-handler dead-stock flags product `P` at
threshold 90 although its most recent movement (the minimum per-location
days-since-last-movement, 5) is not more than 90 days past — the SQL takes
`MAX` over the product's locations, so one stale location suffices. -/
theorem dead_stock_max_location_counterexample :
    (handle_dead_stock invTwoLoc 90).map (fun e => e.1) = ["P"] ∧
    ((currentSnapshot invTwoLoc).map InvRow.days_since_last_movement).min? = some 5 ∧
    ¬ (90 < (5 : ℤ)) := by
  refine ⟨?_, ?_, by norm_num⟩
  · norm_num [handle_dead_stock, invTwoLoc, currentSnapshot, maxIdle, List.filter,
      List.dedup, List.insertionSort, List.orderedInsert, List.filterMap]
  · norm_num [currentSnapshot, invTwoLoc, List.filter]

/-- C8 amended: the API dead-stock result contains exactly the grouped items
that never sold or whose most recent sale is strictly more than `days` days
past (so with threshold 90, last sold 90 days ago is excluded and 91 days ago
is included; the parameter defaults to 90), with
`value_at_risk = qty_on_hand × unit_cost`, sorted descending by value at risk;
the tool-handler dead-stock instead flags a product exactly when the
**maximum** days-since-last-movement over its current-snapshot locations
strictly exceeds the threshold, reporting the summed `inventory_value`
column as value at risk. -/
theorem dead_stock_characterization (inv : List InvRowA) (sales : List SaleRowA)
    (today days : ℤ) (inv2 : List InvRow) (days2 : ℤ) :
    (∀ i ∈ inv.dedup,
      (deadRowOf sales i ∈ get_dead_stock inv sales today days ↔
        lastSaleDate sales i.sku = none ∨
        ∃ d, lastSaleDate sales i.sku = some d ∧ days < today - d)) ∧
    (∀ e ∈ get_dead_stock inv sales today days,
      e.value_at_risk = e.qty_on_hand * e.unit_cost) ∧
    (get_dead_stock inv sales today days).Pairwise
      (fun a b => b.value_at_risk ≤ a.value_at_risk) ∧
    get_dead_stock_route inv sales today none = get_dead_stock inv sales today 90 ∧
    (∀ pid, (∃ e ∈ handle_dead_stock inv2 days2, e.1 = pid) ↔
      pid ∈ ((currentSnapshot inv2).map InvRow.product_id).dedup ∧ days2 < maxIdle inv2 pid) ∧
    get_dead_stock [⟨"A", 1, 2⟩] [⟨"A", 10⟩] 100 90 = [] ∧
    get_dead_stock [⟨"A", 1, 2⟩] [⟨"A", 9⟩] 100 90 = [⟨"A", 1, 2, 2, some 9⟩] := by
  have hdc : ∀ i : InvRowA, deadCond sales today days i = true ↔
      (lastSaleDate sales i.sku = none ∨
        ∃ d, lastSaleDate sales i.sku = some d ∧ days < today - d) := by
    intro i
    unfold deadCond
    cases h : lastSaleDate sales i.sku <;> simp [h]
  have hperm := List.perm_insertionSort
    (fun a b : DeadRow => b.value_at_risk ≤ a.value_at_risk)
    (((inv.dedup).filter (deadCond sales today days)).map (deadRowOf sales))
  refine ⟨?_, ?_, ?_, rfl, ?_, ?_, ?_⟩
  · intro i hi
    rw [← hdc]
    constructor
    · intro hmem
      have hmem' := hperm.mem_iff.mp hmem
      rcases List.mem_map.mp hmem' with ⟨j, hj, hji⟩
      have hcondj := (List.mem_filter.mp hj).2
      obtain ⟨j1, j2, j3⟩ := j
      obtain ⟨i1, i2, i3⟩ := i
      simp only [deadRowOf, DeadRow.mk.injEq] at hji
      obtain ⟨h1, h2, h3, -, -⟩ := hji
      subst h1 h2 h3
      exact hcondj
    · intro hcond
      exact hperm.mem_iff.mpr
        (List.mem_map_of_mem _ (List.mem_filter.mpr ⟨hi, hcond⟩))
  · intro e he
    have he' := hperm.mem_iff.mp he
    rcases List.mem_map.mp he' with ⟨j, _, hje⟩
    rw [← hje]
    rfl
  · haveI : IsTotal DeadRow (fun a b => b.value_at_risk ≤ a.value_at_risk) :=
      ⟨fun a b => le_total b.value_at_risk a.value_at_risk⟩
    haveI : IsTrans DeadRow (fun a b => b.value_at_risk ≤ a.value_at_risk) :=
      ⟨fun _ _ _ hab hbc => le_trans hbc hab⟩
    exact List.sorted_insertionSort _ _
  · intro pid
    have hperm2 := List.perm_insertionSort
      (fun a b : String × ℚ × ℚ × ℤ => b.2.2.1 ≤ a.2.2.1)
      ((((currentSnapshot inv2).map InvRow.product_id).dedup).filterMap (fun pid =>
        let g := (currentSnapshot inv2).filter (fun r => r.product_id == pid)
        if days2 < maxIdle inv2 pid then
          some (pid, (g.map InvRow.qty_on_hand).sum, (g.map InvRow.inventory_value).sum,
            maxIdle inv2 pid)
        else none))
    constructor
    · rintro ⟨e, he, rfl⟩
      have he' := hperm2.mem_iff.mp he
      rcases List.mem_filterMap.mp he' with ⟨p, hp, hpe⟩
      by_cases hc : days2 < maxIdle inv2 p
      · simp only [hc, if_pos] at hpe
        cases hpe
        exact ⟨hp, hc⟩
      · simp [hc] at hpe
    · rintro ⟨hp, hc⟩
      refine ⟨(pid, (((currentSnapshot inv2).filter (fun r => r.product_id == pid)).map
          InvRow.qty_on_hand).sum,
          (((currentSnapshot inv2).filter (fun r => r.product_id == pid)).map
          InvRow.inventory_value).sum, maxIdle inv2 pid), ?_, rfl⟩
      apply hperm2.mem_iff.mpr
      apply List.mem_filterMap.mpr
      exact ⟨pid, hp, by simp [hc]⟩
  · norm_num [get_dead_stock, deadCond, lastSaleDate, List.dedup, List.filter,
      List.insertionSort]
  · norm_num [get_dead_stock, deadCond, deadRowOf, lastSaleDate, List.dedup, List.filter,
      List.insertionSort, List.orderedInsert]

/-- Witness for `dead_stock_characterization`: the strict 90/91-day boundary
on a one-item store. -/
theorem dead_stock_characterization_witness :
    get_dead_stock [⟨"A", 1, 2⟩] [⟨"A", 10⟩] 100 90 = [] ∧
    get_dead_stock [⟨"A", 1, 2⟩] [⟨"A", 9⟩] 100 90 = [⟨"A", 1, 2, 2, some 9⟩] :=
  ⟨(dead_stock_characterization [] [] 0 0 [] 0).2.2.2.2.2.1,
   (dead_stock_characterization [] [] 0 0 [] 0).2.2.2.2.2.2⟩

/-! ## Graph mirroring (`sync_suppliers_to_graph`, `sync_po_to_graph` in `files.py`)

The FalkorDB graph is modelled concretely: `Supplier` nodes keyed by
`supplier_id` (with an optional property record — a node MERGEd by the PO sync
carries no properties), `Product` nodes carrying only their id, and `SUPPLIES`
edges as `(supplier_id, product_id)` pairs.  Cypher `MERGE` on a node pattern
matches every node satisfying the pattern and creates one only when none
matches; `MERGE` on the edge after two `MATCH`es creates the edge only when
both endpoints exist and the edge does not. -/

/-- Properties `SET` on a supplier node by the suppliers sync. -/
structure SupplierProps where
  supplier_name : String
  lead_time : ℚ
  rating : ℚ
  otd_rate : ℚ
  country : String
deriving DecidableEq, Repr

/-- A `Supplier` node: always keyed by id; `props = none` for a node created
by the PO sync's bare `MERGE`. -/
structure SupplierNode where
  supplier_id : String
  props : Option SupplierProps
deriving DecidableEq, Repr

/-- The mirrored graph state. -/
structure Graph where
  suppliers : List SupplierNode
  products : List String
  edges : List (String × String)
deriving DecidableEq, Repr

/-- A row of the uploaded suppliers dataframe (with the `row.get` defaults
already applied). -/
structure SupplierRow where
  supplier_id : String
  supplier_name : String
  avg_lead_time_days : ℚ
  risk_score : ℚ
  on_time_delivery_rate : ℚ
  country : String
deriving DecidableEq, Repr

/-- A row of the uploaded purchase-orders dataframe. -/
structure PoRow where
  product_id : String
  supplier_id : String
deriving DecidableEq, Repr

/-- A supplier node with the given id exists. -/
def hasSupplier (g : Graph) (s : String) : Prop :=
  ∃ n ∈ g.suppliers, n.supplier_id = s

instance (g : Graph) (s : String) : Decidable (hasSupplier g s) :=
  List.decidableBEx _ g.suppliers

/-- The node written by `MERGE (s:Supplier {supplier_id}) SET s....`. -/
def nodeOfRow (r : SupplierRow) : SupplierNode :=
  ⟨r.supplier_id, some ⟨r.supplier_name, r.avg_lead_time_days, r.risk_score,
    r.on_time_delivery_rate, r.country⟩⟩

/-- One loop iteration of `sync_suppliers_to_graph`: `MERGE` the supplier node
by id, then `SET` all its properties (updating every matching node, creating
the node when none matches). -/
def mergeSetSupplier (g : Graph) (r : SupplierRow) : Graph :=
  if hasSupplier g r.supplier_id then
    { g with suppliers := g.suppliers.map (fun n =>
        if n.supplier_id = r.supplier_id then nodeOfRow r else n) }
  else { g with suppliers := g.suppliers ++ [nodeOfRow r] }

/-- `sync_suppliers_to_graph`: upsert one node per dataframe row, in order. -/
def sync_suppliers_to_graph (g : Graph) (rows : List SupplierRow) : Graph :=
  rows.foldl mergeSetSupplier g

/-- `MERGE (p:Product {product_id})`. -/
def mergeProduct (g : Graph) (pid : String) : Graph :=
  if pid ∈ g.products then g else { g with products := g.products ++ [pid] }

/-- `MERGE (s:Supplier {supplier_id})` of the PO sync — creates a bare node
(no `SET`), touching nothing when one exists. -/
def mergeSupplierBare (g : Graph) (sid : String) : Graph :=
  if hasSupplier g sid then g else { g with suppliers := g.suppliers ++ [⟨sid, none⟩] }

/-- `MATCH (s) MATCH (p) MERGE (s)-[:SUPPLIES]->(p)`: the edge is created only
when both endpoints match and no such edge exists. -/
def mergeEdge (g : Graph) (sid pid : String) : Graph :=
  if hasSupplier g sid ∧ pid ∈ g.products then
    if (sid, pid) ∈ g.edges then g else { g with edges := g.edges ++ [(sid, pid)] }
  else g

/-- One loop iteration of `sync_po_to_graph`: skip rows with an empty id,
otherwise `MERGE` product, `MERGE` supplier, then `MERGE` the edge. -/
def poStep (g : Graph) (r : PoRow) : Graph :=
  if r.product_id = "" ∨ r.supplier_id = "" then g
  else mergeEdge (mergeSupplierBare (mergeProduct g r.product_id) r.supplier_id)
    r.supplier_id r.product_id

/-- `sync_po_to_graph`: process the dataframe rows in order. -/
def sync_po_to_graph (g : Graph) (rows : List PoRow) : Graph :=
  rows.foldl poStep g

/-- No two supplier nodes share an id, no duplicate product nodes, no
duplicate edges. -/
def graphNodup (g : Graph) : Prop :=
  (g.suppliers.map SupplierNode.supplier_id).Nodup ∧ g.products.Nodup ∧ g.edges.Nodup

/-- Every `SUPPLIES` edge has both endpoint nodes present. -/
def edgeOk (g : Graph) : Prop :=
  ∀ e ∈ g.edges, hasSupplier g e.1 ∧ e.2 ∈ g.products

/-- The last dataframe row carrying a given supplier id (the one whose `SET`
wins). -/
def lastRowFor (rows : List SupplierRow) (s : String) : Option SupplierRow :=
  rows.reverse.find? (fun r => decide (r.supplier_id = s))

/-- What the suppliers sync leaves at a node: the last matching row's
properties, or the node itself when no row matches it. -/
def patch (rows : List SupplierRow) (n : SupplierNode) : SupplierNode :=
  match lastRowFor rows n.supplier_id with
  | some r => nodeOfRow r
  | none => n

/-! Supplier sync: helper lemmas -/

lemma sync_sup_cons (g : Graph) (r : SupplierRow) (t : List SupplierRow) :
    sync_suppliers_to_graph g (r :: t) = sync_suppliers_to_graph (mergeSetSupplier g r) t :=
  rfl

lemma replace_sid (r : SupplierRow) (n : SupplierNode) :
    (if n.supplier_id = r.supplier_id then nodeOfRow r else n).supplier_id = n.supplier_id := by
  by_cases h : n.supplier_id = r.supplier_id
  · simp [h, nodeOfRow]
  · simp [h]

lemma hasSupplier_mergeSet (g : Graph) (r : SupplierRow) (s : String) :
    hasSupplier (mergeSetSupplier g r) s ↔ (hasSupplier g s ∨ r.supplier_id = s) := by
  unfold mergeSetSupplier
  by_cases h : hasSupplier g r.supplier_id
  · rw [if_pos h]
    unfold hasSupplier
    constructor
    · rintro ⟨n, hn, hsid⟩
      rcases List.mem_map.mp hn with ⟨m, hm, rfl⟩
      rw [replace_sid] at hsid
      exact Or.inl ⟨m, hm, hsid⟩
    · rintro (⟨m, hm, hsid⟩ | hsid)
      · exact ⟨_, List.mem_map_of_mem _ hm, by rw [replace_sid]; exact hsid⟩
      · obtain ⟨m, hm, hmsid⟩ := h
        exact ⟨_, List.mem_map_of_mem _ hm, by rw [replace_sid]; exact hmsid.trans hsid⟩
  · rw [if_neg h]
    unfold hasSupplier
    constructor
    · rintro ⟨n, hn, hsid⟩
      rcases List.mem_append.mp hn with hn | hn
      · exact Or.inl ⟨n, hn, hsid⟩
      · rw [List.mem_singleton.mp hn] at hsid
        exact Or.inr hsid
    · rintro (⟨n, hn, hsid⟩ | hsid)
      · exact ⟨n, List.mem_append_left _ hn, hsid⟩
      · exact ⟨nodeOfRow r, List.mem_append_right _ (List.mem_singleton.mpr rfl), hsid⟩

lemma mergeSet_products (g : Graph) (r : SupplierRow) :
    (mergeSetSupplier g r).products = g.products := by
  unfold mergeSetSupplier
  split <;> rfl

lemma mergeSet_edges (g : Graph) (r : SupplierRow) :
    (mergeSetSupplier g r).edges = g.edges := by
  unfold mergeSetSupplier
  split <;> rfl

lemma hasSupplier_sync_sup_mono {g : Graph} {s : String} (l : List SupplierRow)
    (h : hasSupplier g s) : hasSupplier (sync_suppliers_to_graph g l) s := by
  induction l generalizing g with
  | nil => exact h
  | cons r t ih =>
    rw [sync_sup_cons]
    exact ih ((hasSupplier_mergeSet g r s).mpr (Or.inl h))

lemma hasSupplier_sync_sup_of_mem {r : SupplierRow} (l : List SupplierRow) (g : Graph)
    (hr : r ∈ l) : hasSupplier (sync_suppliers_to_graph g l) r.supplier_id := by
  induction l generalizing g with
  | nil => cases hr
  | cons a t ih =>
    rw [sync_sup_cons]
    rcases List.mem_cons.mp hr with rfl | hrt
    · exact hasSupplier_sync_sup_mono t
        ((hasSupplier_mergeSet g r r.supplier_id).mpr (Or.inr rfl))
    · exact ih _ hrt

lemma lastRowFor_cons (r : SupplierRow) (t : List SupplierRow) (s : String) :
    lastRowFor (r :: t) s =
      (lastRowFor t s).or (if r.supplier_id = s then some r else none) := by
  unfold lastRowFor
  rw [List.reverse_cons, List.find?_append]
  congr 1
  by_cases h : r.supplier_id = s <;> simp [List.find?, h]

lemma patch_nil (n : SupplierNode) : patch [] n = n := rfl

lemma patch_replace (r : SupplierRow) (t : List SupplierRow) (n : SupplierNode) :
    patch t (if n.supplier_id = r.supplier_id then nodeOfRow r else n) = patch (r :: t) n := by
  by_cases hn : n.supplier_id = r.supplier_id
  · rw [if_pos hn]
    unfold patch
    rw [lastRowFor_cons, hn]
    have hsid : (nodeOfRow r).supplier_id = r.supplier_id := rfl
    rw [hsid, if_pos rfl]
    cases hlt : lastRowFor t r.supplier_id
    · simp
    · simp
  · rw [if_neg hn]
    unfold patch
    rw [lastRowFor_cons]
    rw [if_neg (fun hh => hn hh.symm), Option.or_none]

lemma sync_sup_all_present :
    ∀ (l : List SupplierRow) (g : Graph), (∀ r ∈ l, hasSupplier g r.supplier_id) →
    sync_suppliers_to_graph g l = { g with suppliers := g.suppliers.map (patch l) } := by
  intro l
  induction l with
  | nil =>
    intro g _
    have h1 : g.suppliers.map (patch []) = g.suppliers :=
      (List.map_congr_left (fun n _ => patch_nil n)).trans (List.map_id _)
    show g = _
    rw [h1]
  | cons r t ih =>
    intro g hall
    rw [sync_sup_cons]
    have hr : hasSupplier g r.supplier_id := hall r (List.mem_cons_self r t)
    have hallt : ∀ q ∈ t, hasSupplier (mergeSetSupplier g r) q.supplier_id := fun q hq =>
      (hasSupplier_mergeSet g r q.supplier_id).mpr
        (Or.inl (hall q (List.mem_cons_of_mem r hq)))
    rw [ih (mergeSetSupplier g r) hallt]
    unfold mergeSetSupplier
    rw [if_pos hr]
    have h2 : (g.suppliers.map (fun n =>
        if n.supplier_id = r.supplier_id then nodeOfRow r else n)).map (patch t) =
        g.suppliers.map (patch (r :: t)) := by
      rw [List.map_map]
      exact List.map_congr_left (fun n _ => patch_replace r t n)
    simp only [h2]

lemma filter_replace_ne (ns : List SupplierNode) (r : SupplierRow) (s : String)
    (hne : r.supplier_id ≠ s) :
    (ns.map (fun n => if n.supplier_id = r.supplier_id then nodeOfRow r else n)).filter
      (fun n => decide (n.supplier_id = s)) =
      ns.filter (fun n => decide (n.supplier_id = s)) := by
  induction ns with
  | nil => rfl
  | cons n t ih =>
    simp only [List.map_cons, List.filter_cons]
    by_cases hn : n.supplier_id = r.supplier_id
    · rw [if_pos hn]
      have h1 : (decide ((nodeOfRow r).supplier_id = s)) = false := by
        simp [nodeOfRow, hne]
      have h2 : (decide (n.supplier_id = s)) = false := by
        simp [hn, hne]
      rw [h1, h2]
      simpa using ih
    · rw [if_neg hn]
      by_cases hs : n.supplier_id = s <;> simp [hs, ih]

lemma sync_sup_filter_untouched :
    ∀ (t : List SupplierRow) (g : Graph) (s : String), lastRowFor t s = none →
    (sync_suppliers_to_graph g t).suppliers.filter (fun n => decide (n.supplier_id = s)) =
      g.suppliers.filter (fun n => decide (n.supplier_id = s)) := by
  intro t
  induction t with
  | nil => intro g s _; rfl
  | cons r t ih =>
    intro g s hnone
    rw [lastRowFor_cons] at hnone
    have h1 : lastRowFor t s = none := by
      cases h : lastRowFor t s
      · rfl
      · rw [h] at hnone
        simp at hnone
    have h2 : r.supplier_id ≠ s := by
      intro he
      rw [h1, Option.none_or, if_pos he] at hnone
      cases hnone
    rw [sync_sup_cons, ih _ s h1]
    unfold mergeSetSupplier
    split
    · exact filter_replace_ne g.suppliers r s h2
    · simp [List.filter_append, nodeOfRow, h2]

lemma mergeSet_node_at_sid (g : Graph) (r : SupplierRow) :
    ∀ n ∈ (mergeSetSupplier g r).suppliers, n.supplier_id = r.supplier_id → n = nodeOfRow r := by
  intro n hn hsid
  unfold mergeSetSupplier at hn
  by_cases h : hasSupplier g r.supplier_id
  · rw [if_pos h] at hn
    rcases List.mem_map.mp hn with ⟨m, hm, rfl⟩
    by_cases hm2 : m.supplier_id = r.supplier_id
    · rw [if_pos hm2]
    · rw [if_neg hm2] at hsid ⊢
      exact absurd hsid hm2
  · rw [if_neg h] at hn
    rcases List.mem_append.mp hn with hn | hn
    · exact absurd ⟨n, hn, hsid⟩ h
    · exact List.mem_singleton.mp hn

lemma sync_sup_node_lastRow :
    ∀ (l : List SupplierRow) (g : Graph) (n : SupplierNode),
      n ∈ (sync_suppliers_to_graph g l).suppliers →
      ∀ q : SupplierRow, lastRowFor l n.supplier_id = some q → n = nodeOfRow q := by
  intro l
  induction l with
  | nil =>
    intro g n _ q hq
    cases hq
  | cons r t ih =>
    intro g n hn q hq
    rw [sync_sup_cons] at hn
    rw [lastRowFor_cons] at hq
    cases hlt : lastRowFor t n.supplier_id with
    | some r2 =>
      rw [hlt, Option.or_some] at hq
      injection hq with hq
      subst hq
      exact ih _ n hn r2 hlt
    | none =>
      rw [hlt, Option.none_or] at hq
      by_cases hrs : r.supplier_id = n.supplier_id
      · rw [if_pos hrs] at hq
        injection hq with hq
        subst hq
        have hfil := sync_sup_filter_untouched t (mergeSetSupplier g r) n.supplier_id hlt
        have hmem : n ∈ (sync_suppliers_to_graph (mergeSetSupplier g r) t).suppliers.filter
            (fun m => decide (m.supplier_id = n.supplier_id)) :=
          List.mem_filter.mpr ⟨hn, by simp⟩
        rw [hfil] at hmem
        exact mergeSet_node_at_sid g r n (List.mem_filter.mp hmem).1 hrs.symm
      · rw [if_neg hrs] at hq
        cases hq

lemma sync_sup_idem (g : Graph) (l : List SupplierRow) :
    sync_suppliers_to_graph (sync_suppliers_to_graph g l) l = sync_suppliers_to_graph g l := by
  have hall : ∀ r ∈ l, hasSupplier (sync_suppliers_to_graph g l) r.supplier_id :=
    fun r hr => hasSupplier_sync_sup_of_mem l g hr
  rw [sync_sup_all_present l _ hall]
  have h1 : (sync_suppliers_to_graph g l).suppliers.map (patch l) =
      (sync_suppliers_to_graph g l).suppliers := by
    conv_rhs => rw [← List.map_id (sync_suppliers_to_graph g l).suppliers]
    apply List.map_congr_left
    intro n hn
    unfold patch
    cases hlt : lastRowFor l n.supplier_id with
    | none => rfl
    | some q => exact (sync_sup_node_lastRow l g n hn q hlt).symm
  rw [h1]

/-! Supplier sync: no-duplicate and edge-invariant preservation -/

lemma sids_mergeSet (g : Graph) (r : SupplierRow) :
    (mergeSetSupplier g r).suppliers.map SupplierNode.supplier_id =
      if hasSupplier g r.supplier_id then g.suppliers.map SupplierNode.supplier_id
      else g.suppliers.map SupplierNode.supplier_id ++ [r.supplier_id] := by
  unfold mergeSetSupplier
  by_cases h : hasSupplier g r.supplier_id
  · rw [if_pos h, if_pos h]
    simp only [List.map_map]
    exact List.map_congr_left (fun n _ => replace_sid r n)
  · rw [if_neg h, if_neg h]
    simp [nodeOfRow]

lemma graphNodup_mergeSet {g : Graph} (r : SupplierRow) (h : graphNodup g) :
    graphNodup (mergeSetSupplier g r) := by
  obtain ⟨hs, hp, he⟩ := h
  refine ⟨?_, ?_, ?_⟩
  · rw [sids_mergeSet]
    by_cases hh : hasSupplier g r.supplier_id
    · rw [if_pos hh]
      exact hs
    · rw [if_neg hh]
      have hnotin : r.supplier_id ∉ g.suppliers.map SupplierNode.supplier_id := by
        intro hmem
        rcases List.mem_map.mp hmem with ⟨n, hn, hsid⟩
        exact hh ⟨n, hn, hsid⟩
      simp [List.nodup_append, hs, hnotin]
  · rw [mergeSet_products]
    exact hp
  · rw [mergeSet_edges]
    exact he

lemma edgeOk_mergeSet {g : Graph} (r : SupplierRow) (h : edgeOk g) :
    edgeOk (mergeSetSupplier g r) := by
  intro e he
  rw [mergeSet_edges] at he
  obtain ⟨h1, h2⟩ := h e he
  exact ⟨(hasSupplier_mergeSet g r e.1).mpr (Or.inl h1), by rw [mergeSet_products]; exact h2⟩

lemma graphNodup_sync_sup {g : Graph} (l : List SupplierRow) (h : graphNodup g) :
    graphNodup (sync_suppliers_to_graph g l) := by
  induction l generalizing g with
  | nil => exact h
  | cons r t ih =>
    rw [sync_sup_cons]
    exact ih (graphNodup_mergeSet r h)

lemma edgeOk_sync_sup {g : Graph} (l : List SupplierRow) (h : edgeOk g) :
    edgeOk (sync_suppliers_to_graph g l) := by
  induction l generalizing g with
  | nil => exact h
  | cons r t ih =>
    rw [sync_sup_cons]
    exact ih (edgeOk_mergeSet r h)

/-! PO sync: helper lemmas -/

lemma sync_po_cons (g : Graph) (r : PoRow) (t : List PoRow) :
    sync_po_to_graph g (r :: t) = sync_po_to_graph (poStep g r) t :=
  rfl

lemma mergeProduct_suppliers (g : Graph) (pid : String) :
    (mergeProduct g pid).suppliers = g.suppliers := by
  unfold mergeProduct
  split <;> rfl

lemma mergeProduct_edges (g : Graph) (pid : String) :
    (mergeProduct g pid).edges = g.edges := by
  unfold mergeProduct
  split <;> rfl

lemma mergeProduct_products_mono {g : Graph} {p : String} (pid : String)
    (h : p ∈ g.products) : p ∈ (mergeProduct g pid).products := by
  unfold mergeProduct
  split
  · exact h
  · exact List.mem_append_left _ h

lemma mergeProduct_mem (g : Graph) (pid : String) : pid ∈ (mergeProduct g pid).products := by
  unfold mergeProduct
  split
  · assumption
  · exact List.mem_append_right _ (List.mem_singleton.mpr rfl)

lemma mergeSupplierBare_products (g : Graph) (sid : String) :
    (mergeSupplierBare g sid).products = g.products := by
  unfold mergeSupplierBare
  split <;> rfl

lemma mergeSupplierBare_edges (g : Graph) (sid : String) :
    (mergeSupplierBare g sid).edges = g.edges := by
  unfold mergeSupplierBare
  split <;> rfl

lemma mergeSupplierBare_mono {g : Graph} {s : String} (sid : String)
    (h : hasSupplier g s) : hasSupplier (mergeSupplierBare g sid) s := by
  unfold mergeSupplierBare
  split
  · exact h
  · obtain ⟨n, hn, hsid⟩ := h
    exact ⟨n, List.mem_append_left _ hn, hsid⟩

lemma mergeSupplierBare_mem (g : Graph) (sid : String) :
    hasSupplier (mergeSupplierBare g sid) sid := by
  unfold mergeSupplierBare
  split
  · assumption
  · exact ⟨⟨sid, none⟩, List.mem_append_right _ (List.mem_singleton.mpr rfl), rfl⟩

lemma mergeEdge_suppliers (g : Graph) (sid pid : String) :
    (mergeEdge g sid pid).suppliers = g.suppliers := by
  unfold mergeEdge
  split
  · split <;> rfl
  · rfl

lemma mergeEdge_products (g : Graph) (sid pid : String) :
    (mergeEdge g sid pid).products = g.products := by
  unfold mergeEdge
  split
  · split <;> rfl
  · rfl

lemma mergeEdge_edges_mono {g : Graph} {e : String × String} (sid pid : String)
    (h : e ∈ g.edges) : e ∈ (mergeEdge g sid pid).edges := by
  unfold mergeEdge
  split
  · split
    · exact h
    · exact List.mem_append_left _ h
  · exact h

lemma mergeEdge_mem {g : Graph} {sid pid : String}
    (hs : hasSupplier g sid) (hp : pid ∈ g.products) :
    (sid, pid) ∈ (mergeEdge g sid pid).edges := by
  unfold mergeEdge
  rw [if_pos ⟨hs, hp⟩]
  split
  · assumption
  · exact List.mem_append_right _ (List.mem_singleton.mpr rfl)

lemma poStep_suppliers_mono {g : Graph} {s : String} (r : PoRow)
    (h : hasSupplier g s) : hasSupplier (poStep g r) s := by
  unfold poStep
  split
  · exact h
  · rw [hasSupplier, mergeEdge_suppliers]
    exact mergeSupplierBare_mono r.supplier_id (by rw [hasSupplier, mergeProduct_suppliers]; exact h)

lemma poStep_products_mono {g : Graph} {p : String} (r : PoRow)
    (h : p ∈ g.products) : p ∈ (poStep g r).products := by
  unfold poStep
  split
  · exact h
  · rw [mergeEdge_products, mergeSupplierBare_products]
    exact mergeProduct_products_mono _ h

lemma poStep_edges_mono {g : Graph} {e : String × String} (r : PoRow)
    (h : e ∈ g.edges) : e ∈ (poStep g r).edges := by
  unfold poStep
  split
  · exact h
  · apply mergeEdge_edges_mono
    rw [mergeSupplierBare_edges, mergeProduct_edges]
    exact h

/-- A PO row already fully reflected in the graph (or skipped). -/
def settled (g : Graph) (r : PoRow) : Prop :=
  r.product_id = "" ∨ r.supplier_id = "" ∨
    (hasSupplier g r.supplier_id ∧ r.product_id ∈ g.products ∧
      (r.supplier_id, r.product_id) ∈ g.edges)

lemma poStep_noop {g : Graph} {r : PoRow} (h : settled g r) : poStep g r = g := by
  rcases h with h | h | ⟨h1, h2, h3⟩
  · unfold poStep
    rw [if_pos (Or.inl h)]
  · unfold poStep
    rw [if_pos (Or.inr h)]
  · unfold poStep
    by_cases he : r.product_id = "" ∨ r.supplier_id = ""
    · rw [if_pos he]
    · rw [if_neg he]
      have hp : mergeProduct g r.product_id = g := by
        unfold mergeProduct
        rw [if_pos h2]
      rw [hp]
      have hs : mergeSupplierBare g r.supplier_id = g := by
        unfold mergeSupplierBare
        rw [if_pos h1]
      rw [hs]
      unfold mergeEdge
      rw [if_pos ⟨h1, h2⟩, if_pos h3]

lemma settled_poStep_mono {g : Graph} {r r2 : PoRow} (h : settled g r) :
    settled (poStep g r2) r := by
  rcases h with h | h | ⟨h1, h2, h3⟩
  · exact Or.inl h
  · exact Or.inr (Or.inl h)
  · exact Or.inr (Or.inr ⟨poStep_suppliers_mono r2 h1, poStep_products_mono r2 h2,
      poStep_edges_mono r2 h3⟩)

lemma poStep_settles (g : Graph) (r : PoRow) : settled (poStep g r) r := by
  by_cases he : r.product_id = "" ∨ r.supplier_id = ""
  · rcases he with he | he
    · exact Or.inl he
    · exact Or.inr (Or.inl he)
  · push_neg at he
    refine Or.inr (Or.inr ?_)
    unfold poStep
    rw [if_neg (by push_neg; exact he)]
    have hprod : r.product_id ∈
        (mergeSupplierBare (mergeProduct g r.product_id) r.supplier_id).products := by
      rw [mergeSupplierBare_products]
      exact mergeProduct_mem g r.product_id
    have hsup : hasSupplier
        (mergeSupplierBare (mergeProduct g r.product_id) r.supplier_id) r.supplier_id :=
      mergeSupplierBare_mem _ r.supplier_id
    refine ⟨?_, ?_, ?_⟩
    · rw [hasSupplier, mergeEdge_suppliers]
      exact hsup
    · rw [mergeEdge_products]
      exact hprod
    · exact mergeEdge_mem hsup hprod

lemma settled_sync_po_mono {g : Graph} {r : PoRow} (l : List PoRow)
    (h : settled g r) : settled (sync_po_to_graph g l) r := by
  induction l generalizing g with
  | nil => exact h
  | cons a t ih =>
    rw [sync_po_cons]
    exact ih (settled_poStep_mono h)

lemma sync_po_settles {r : PoRow} (l : List PoRow) (g : Graph) (hr : r ∈ l) :
    settled (sync_po_to_graph g l) r := by
  induction l generalizing g with
  | nil => cases hr
  | cons a t ih =>
    rw [sync_po_cons]
    rcases List.mem_cons.mp hr with rfl | hrt
    · exact settled_sync_po_mono t (poStep_settles g r)
    · exact ih _ hrt

lemma sync_po_noop {g : Graph} (l : List PoRow) (h : ∀ r ∈ l, settled g r) :
    sync_po_to_graph g l = g := by
  induction l with
  | nil => rfl
  | cons a t ih =>
    rw [sync_po_cons, poStep_noop (h a (List.mem_cons_self a t))]
    exact ih (fun r hr => h r (List.mem_cons_of_mem a hr))

lemma sync_po_idem (g : Graph) (l : List PoRow) :
    sync_po_to_graph (sync_po_to_graph g l) l = sync_po_to_graph g l :=
  sync_po_noop l (fun _ hr => sync_po_settles l g hr)

/-! PO sync: no-duplicate and edge-invariant preservation -/

lemma graphNodup_mergeProduct {g : Graph} (pid : String) (h : graphNodup g) :
    graphNodup (mergeProduct g pid) := by
  obtain ⟨hs, hp, he⟩ := h
  refine ⟨by rw [mergeProduct_suppliers]; exact hs, ?_, by rw [mergeProduct_edges]; exact he⟩
  unfold mergeProduct
  split
  · exact hp
  · simp_all [List.nodup_append]

lemma graphNodup_mergeSupplierBare {g : Graph} (sid : String) (h : graphNodup g) :
    graphNodup (mergeSupplierBare g sid) := by
  obtain ⟨hs, hp, he⟩ := h
  refine ⟨?_, by rw [mergeSupplierBare_products]; exact hp,
    by rw [mergeSupplierBare_edges]; exact he⟩
  unfold mergeSupplierBare
  by_cases hh : hasSupplier g sid
  · rw [if_pos hh]
    exact hs
  · rw [if_neg hh]
    have hnotin : sid ∉ g.suppliers.map SupplierNode.supplier_id := by
      intro hmem
      rcases List.mem_map.mp hmem with ⟨n, hn, hsid⟩
      exact hh ⟨n, hn, hsid⟩
    simp [List.nodup_append, hs, hnotin]

lemma graphNodup_mergeEdge {g : Graph} (sid pid : String) (h : graphNodup g) :
    graphNodup (mergeEdge g sid pid) := by
  obtain ⟨hs, hp, he⟩ := h
  refine ⟨by rw [mergeEdge_suppliers]; exact hs, by rw [mergeEdge_products]; exact hp, ?_⟩
  unfold mergeEdge
  split
  · split
    · exact he
    · simp_all [List.nodup_append]
  · exact he

lemma graphNodup_poStep {g : Graph} (r : PoRow) (h : graphNodup g) :
    graphNodup (poStep g r) := by
  unfold poStep
  split
  · exact h
  · exact graphNodup_mergeEdge _ _
      (graphNodup_mergeSupplierBare _ (graphNodup_mergeProduct _ h))

lemma graphNodup_sync_po {g : Graph} (l : List PoRow) (h : graphNodup g) :
    graphNodup (sync_po_to_graph g l) := by
  induction l generalizing g with
  | nil => exact h
  | cons r t ih =>
    rw [sync_po_cons]
    exact ih (graphNodup_poStep r h)

lemma edgeOk_mergeProduct {g : Graph} (pid : String) (h : edgeOk g) :
    edgeOk (mergeProduct g pid) := by
  intro e he
  rw [mergeProduct_edges] at he
  obtain ⟨h1, h2⟩ := h e he
  exact ⟨by rw [hasSupplier, mergeProduct_suppliers]; exact h1,
    mergeProduct_products_mono pid h2⟩

lemma edgeOk_mergeSupplierBare {g : Graph} (sid : String) (h : edgeOk g) :
    edgeOk (mergeSupplierBare g sid) := by
  intro e he
  rw [mergeSupplierBare_edges] at he
  obtain ⟨h1, h2⟩ := h e he
  exact ⟨mergeSupplierBare_mono sid h1, by rw [mergeSupplierBare_products]; exact h2⟩

lemma edgeOk_mergeEdge {g : Graph} (sid pid : String) (h : edgeOk g) :
    edgeOk (mergeEdge g sid pid) := by
  intro e he
  have hsup : ∀ s, hasSupplier (mergeEdge g sid pid) s ↔ hasSupplier g s := by
    intro s
    rw [hasSupplier, hasSupplier, mergeEdge_suppliers]
  have hprod : (mergeEdge g sid pid).products = g.products := mergeEdge_products g sid pid
  unfold mergeEdge at he
  by_cases hc : hasSupplier g sid ∧ pid ∈ g.products
  · rw [if_pos hc] at he
    by_cases hm : (sid, pid) ∈ g.edges
    · rw [if_pos hm] at he
      obtain ⟨h1, h2⟩ := h e he
      exact ⟨(hsup e.1).mpr h1, by rw [hprod]; exact h2⟩
    · rw [if_neg hm] at he
      rcases List.mem_append.mp he with he | he
      · obtain ⟨h1, h2⟩ := h e he
        exact ⟨(hsup e.1).mpr h1, by rw [hprod]; exact h2⟩
      · rw [List.mem_singleton.mp he]
        exact ⟨(hsup sid).mpr hc.1, by rw [hprod]; exact hc.2⟩
  · rw [if_neg hc] at he
    obtain ⟨h1, h2⟩ := h e he
    exact ⟨(hsup e.1).mpr h1, by rw [hprod]; exact h2⟩

lemma edgeOk_poStep {g : Graph} (r : PoRow) (h : edgeOk g) : edgeOk (poStep g r) := by
  unfold poStep
  split
  · exact h
  · exact edgeOk_mergeEdge _ _ (edgeOk_mergeSupplierBare _ (edgeOk_mergeProduct _ h))

lemma edgeOk_sync_po {g : Graph} (l : List PoRow) (h : edgeOk g) :
    edgeOk (sync_po_to_graph g l) := by
  induction l generalizing g with
  | nil => exact h
  | cons r t ih =>
    rw [sync_po_cons]
    exact ih (edgeOk_poStep r h)

/-! ## Theorems: C9 (graph mirroring) -/

/-- C9: graph mirroring of suppliers and purchase orders is an idempotent
upsert — running either sync twice on the same input equals running it once —
and, starting from a well-formed graph, it creates no duplicate `Supplier` or
`Product` nodes and no duplicate `SUPPLIES` edges, and every `SUPPLIES` edge
has both endpoint nodes present (edges are only merged after both endpoints
have been upserted). -/
theorem graph_sync_contract (g : Graph) (ls : List SupplierRow) (lp : List PoRow)
    (hn : graphNodup g) (hok : edgeOk g) :
    sync_suppliers_to_graph (sync_suppliers_to_graph g ls) ls =
      sync_suppliers_to_graph g ls ∧
    sync_po_to_graph (sync_po_to_graph g lp) lp = sync_po_to_graph g lp ∧
    graphNodup (sync_suppliers_to_graph g ls) ∧
    graphNodup (sync_po_to_graph g lp) ∧
    edgeOk (sync_suppliers_to_graph g ls) ∧
    edgeOk (sync_po_to_graph g lp) :=
  ⟨sync_sup_idem g ls, sync_po_idem g lp, graphNodup_sync_sup ls hn,
   graphNodup_sync_po lp hn, edgeOk_sync_sup ls hok, edgeOk_sync_po lp hok⟩

/-- The empty graph. -/
def gEmpty : Graph := ⟨[], [], []⟩

/-- A one-row suppliers upload. -/
def supRow1 : SupplierRow := ⟨"S1", "Acme", 7, 2, 95/100, "US"⟩

/-- A one-row purchase-orders upload. -/
def poRow1 : PoRow := ⟨"P1", "S1"⟩

/-- Witness for `graph_sync_contract` at the empty graph. -/
theorem graph_sync_contract_witness :
    sync_suppliers_to_graph (sync_suppliers_to_graph gEmpty [supRow1]) [supRow1] =
      sync_suppliers_to_graph gEmpty [supRow1] ∧
    sync_po_to_graph (sync_po_to_graph gEmpty [poRow1]) [poRow1] =
      sync_po_to_graph gEmpty [poRow1] ∧
    edgeOk (sync_po_to_graph gEmpty [poRow1]) := by
  have h := graph_sync_contract gEmpty [supRow1] [poRow1]
    ⟨List.nodup_nil, List.nodup_nil, List.nodup_nil⟩
    (fun e he => absurd he (List.not_mem_nil e))
  exact ⟨h.1, h.2.1, h.2.2.2.2.2⟩
